import Mathlib

/-
Verification of the lockfile reconciliation core (`src/lock/lockfile.rs`)
of the wapm-cli package manager: a shallow embedding of the data model and
the operations, followed by theorems about them.

Rust `BTreeMap<String, V>` is modelled as an association list that is kept
sorted by key via ordered insertion with overwrite-on-equal-key; lookup is
exact-key. Fallible Rust functions returning `Result<T, failure::Error>`
are modelled as `Except WapmError T`; the `?` operator becomes an explicit
match that propagates the error.
-/

namespace Wapm

/-- Lexicographic comparison of character sequences by code point,
matching the strict order `BTreeMap<String, _>` keys are kept in. -/
def strLtAux : List Char → List Char → Bool
  | [], [] => false
  | [], _ :: _ => true
  | _ :: _, [] => false
  | a :: as, b :: bs =>
    if Nat.blt a.toNat b.toNat then true
    else if Nat.blt b.toNat a.toNat then false
    else strLtAux as bs

/-- Lexicographic string order (by code point; on the ASCII keys built
here this agrees with Rust's byte-wise `Ord` for `String`). -/
def strLt (a b : String) : Bool := strLtAux a.data b.data

/-- Model of Rust's `BTreeMap<String, α>`: an association list, ordered by
key when built by `insert` from `empty`. -/
abbrev BTreeMap (α : Type) : Type := List (String × α)

namespace BTreeMap

def empty {α : Type} : BTreeMap α := []

/-- Ordered insertion with overwrite on an equal key, mirroring
`BTreeMap::insert` (which replaces the previous value for the key). -/
def insert {α : Type} (k : String) (v : α) : BTreeMap α → BTreeMap α
  | [] => [(k, v)]
  | (k', v') :: rest =>
    if strLt k k' then (k, v) :: (k', v') :: rest
    else if k = k' then (k, v) :: rest
    else (k', v') :: insert k v rest

/-- Exact-key lookup, mirroring `BTreeMap::get`. -/
def get {α : Type} (k : String) : BTreeMap α → Option α
  | [] => none
  | (k', v') :: rest => if k = k' then some v' else get k rest

end BTreeMap

/-- Modelled from the spec: the manifest's command entries
(`src/manifest.rs` is not among the given sources); §3: each command
declares a name. -/
structure Command where
  name : String
deriving DecidableEq, Repr

/-- Modelled from the spec: the manifest's owned-module entry
(`src/manifest.rs` is not among the given sources); §3: a module declares
a name, a version and an entry reference; the binary-interface kind is
carried along for the lock record. -/
structure Module where
  name : String
  version : String
  entry : String
  abi : String
deriving DecidableEq, Repr

/-- The fully resolved module record stored in the lockfile
(fields as in the persisted `[modules."name version"]` tables). -/
structure LockfileModule where
  name : String
  version : String
  source : String
  resolved : String
  integrity : String
  hash : String
  abi : String
  entry : String
deriving DecidableEq, Repr

/-- Modelled from the spec: `LockfileModule::from_module` lives in
`src/lock/lockfile_module.rs`, which is not among the given sources; per
§3 the lock record carries the module's own resolved name and version,
and the in-source test (`lockfile.rs` lines 404-552) confirms it: a
dependency whose `Dependency.name` is foo but whose manifest module is
bar/3.0.0 produces `modules."bar 3.0.0"` with name bar and source
registry+bar. So the record's name comes from the module, not from the
dependency-name argument passed at the call site, and the remaining
fields are the derived source / download URL / integrity / hash, the
entry path and the binary-interface kind. -/
def LockfileModule.from_module (_name : String) (module : Module)
    (download_url : String) : LockfileModule :=
  { name := module.name
    version := module.version
    source := "registry+" ++ module.name
    resolved := download_url
    integrity := ""
    hash := ""
    abi := module.abi
    entry := module.entry }

/-- The command record stored in the lockfile; per §3 it carries the
module reference: the string key identifying the owning module. -/
structure LockfileCommand where
  module : String
deriving DecidableEq, Repr

/-- Modelled from the spec: `LockfileCommand::from_command` lives in
`src/lock/lockfile_command.rs`, which is not among the given sources; per
§4.2 it builds `LockfileCommand { module: key }` for the given command. -/
def LockfileCommand.from_command (key : String) (_command : Command) :
    LockfileCommand :=
  { module := key }

/-- Modelled from the spec: a declared dependency value in the manifest's
dependency table; a well-formed declaration is a literal
version-constraint string (§3), anything else is malformed (§7,
ManifestFailure). -/
inductive DepValue where
  | str (s : String)
  | malformed
deriving DecidableEq, Repr

/-- Modelled from the spec: the manifest (§3): an optional owned module, an
optional command list, an optional dependency table mapping names to
declared constraint values. -/
structure Manifest where
  module : Option Module
  command : Option (List Command)
  dependencies : Option (List (String × DepValue))
deriving DecidableEq, Repr

/-- The typed lookup errors of `LockfileError` (lines 134-140 of
`lockfile.rs`). -/
inductive LockfileError where
  | CommandNotFound (name : String)
  | ModuleNotFound (name : String)
deriving DecidableEq, Repr

/-- Model of the dynamic `failure::Error`: the error kinds of §7. -/
inductive WapmError where
  | lockfile (e : LockfileError)
  | manifest (name : String)
  | resolution (name version : String)
  | io (msg : String)
deriving DecidableEq, Repr

/-- Modelled from the spec: `extract_dependencies` lives in
`src/manifest.rs`, which is not among the given sources; per §6 it turns
the declared dependency table into a sequence of (name, constraint-string)
pairs and fails on a malformed declaration (§7, ManifestFailure). -/
def extract_dependencies : List (String × DepValue) →
    Except WapmError (List (String × String))
  | [] => Except.ok []
  | (name, DepValue.str v) :: rest =>
    match extract_dependencies rest with
    | Except.error e => Except.error e
    | Except.ok tail => Except.ok ((name, v) :: tail)
  | (name, DepValue.malformed) :: _ => Except.error (WapmError.manifest name)

/-- The resolved-dependency record produced by the external resolver
(`src/dependency_resolver.rs`, consumed by `lockfile.rs`). -/
structure Dependency where
  name : String
  manifest : Manifest
  download_url : String
deriving Repr

/-- The external dependency-resolver capability (§6): given a name and a
version-constraint string, returns a resolved dependency or fails. -/
abbrev DependencyResolver := String → String → Except WapmError Dependency

/-- The lockfile aggregate (lines 11-15 of `lockfile.rs`). -/
structure Lockfile where
  modules : BTreeMap LockfileModule
  commands : BTreeMap LockfileCommand
deriving DecidableEq, Repr

/-- The loop body of `resolve_changes` (lines 154-162): for each declared
(name, version) pair, compute the key `name ++ " " ++ version`; a hit in
the existing module map copies the module into `not_changed`, a miss
appends the pair to `changes`. -/
def resolve_changes_loop (lockfile_modules : BTreeMap LockfileModule) :
    List (String × String) → List (String × String) →
    BTreeMap LockfileModule →
    List (String × String) × BTreeMap LockfileModule
  | [], changes, not_changed => (changes, not_changed)
  | (name, version) :: rest, changes, not_changed =>
    let key := name ++ " " ++ version
    match BTreeMap.get key lockfile_modules with
    | some lockfile_module =>
      resolve_changes_loop lockfile_modules rest changes
        (BTreeMap.insert key lockfile_module not_changed)
    | none =>
      resolve_changes_loop lockfile_modules rest
        (changes ++ [(name, version)]) not_changed

/-- `resolve_changes` (lines 145-168): diff the manifest's declared
dependencies against the existing lockfile modules. -/
def resolve_changes (manifest : Manifest)
    (lockfile_modules : BTreeMap LockfileModule) :
    Except WapmError
      (List (String × String) × BTreeMap LockfileModule) :=
  match manifest.dependencies with
  | some dependencies =>
    match extract_dependencies dependencies with
    | Except.error e => Except.error e
    | Except.ok deps =>
      Except.ok (resolve_changes_loop lockfile_modules deps [] BTreeMap.empty)
  | none => Except.ok ([], BTreeMap.empty)

/-- The command-insertion loop shared by lines 190-193 and 209-212: for
each declared command, insert `LockfileCommand::from_command(key, command)`
under the command's name. -/
def insert_commands (key : String) (commands : List Command)
    (lockfile_commands : BTreeMap LockfileCommand) :
    BTreeMap LockfileCommand :=
  commands.foldl
    (fun acc command =>
      BTreeMap.insert command.name (LockfileCommand.from_command key command) acc)
    lockfile_commands

/-- `get_lockfile_data_from_manifest` (lines 170-200): import one resolved
dependency into the accumulating module and command maps. -/
def get_lockfile_data_from_manifest (dependency : Dependency)
    (lockfile_modules : BTreeMap LockfileModule)
    (lockfile_commands : BTreeMap LockfileCommand) :
    BTreeMap LockfileModule × BTreeMap LockfileCommand :=
  let manifest := dependency.manifest
  let download_url := dependency.download_url
  match manifest.module with
  | some module =>
    let lockfile_module :=
      LockfileModule.from_module dependency.name module download_url
    let key := lockfile_module.name ++ " " ++ lockfile_module.version
    let lockfile_modules := BTreeMap.insert key lockfile_module lockfile_modules
    let lockfile_commands :=
      match manifest.command with
      | some commands => insert_commands key commands lockfile_commands
      | none => lockfile_commands
    (lockfile_modules, lockfile_commands)
  | none => (lockfile_modules, lockfile_commands)

/-- `get_commands_from_manifest` (lines 202-217): import the root
manifest's own commands, keyed to the root module's key; a no-op unless
both a module and commands are declared. -/
def get_commands_from_manifest (manifest : Manifest)
    (lockfile_commands : BTreeMap LockfileCommand) :
    BTreeMap LockfileCommand :=
  match manifest.command, manifest.module with
  | some commands, some module =>
    insert_commands (module.name ++ " " ++ module.version) commands
      lockfile_commands
  | _, _ => lockfile_commands

/-- Lines 35-38: the declared dependencies of the manifest, or the empty
list when none are declared. -/
def extracted_dependencies (manifest : Manifest) :
    Except WapmError (List (String × String)) :=
  match manifest.dependencies with
  | some dependencies => extract_dependencies dependencies
  | none => Except.ok []

/-- The resolution loop of `new_from_manifest` (lines 39-43): resolve
every declared dependency in order, aborting on the first failure. -/
def resolve_all (dependency_resolver : DependencyResolver) :
    List (String × String) → Except WapmError (List Dependency)
  | [] => Except.ok []
  | (name, version) :: rest =>
    match dependency_resolver name version with
    | Except.error e => Except.error e
    | Except.ok dependency_manifest =>
      match resolve_all dependency_resolver rest with
      | Except.error e => Except.error e
      | Except.ok tail => Except.ok (dependency_manifest :: tail)

/-- The import loop of `new_from_manifest` (lines 44-50): feed every
resolved dependency through the module importer, accumulating the two
maps. -/
def import_all (manifests : List Dependency)
    (start : BTreeMap LockfileModule × BTreeMap LockfileCommand) :
    BTreeMap LockfileModule × BTreeMap LockfileCommand :=
  manifests.foldl
    (fun acc dependency_manifest =>
      get_lockfile_data_from_manifest dependency_manifest acc.1 acc.2)
    start

/-- `Lockfile::new_from_manifest` (lines 29-60): construct a lockfile from
a manifest alone; every declared dependency is resolved. -/
def Lockfile.new_from_manifest (manifest : Manifest)
    (dependency_resolver : DependencyResolver) : Except WapmError Lockfile :=
  match extracted_dependencies manifest with
  | Except.error e => Except.error e
  | Except.ok dependencies =>
    match resolve_all dependency_resolver dependencies with
    | Except.error e => Except.error e
    | Except.ok manifests =>
      let acc := import_all manifests (BTreeMap.empty, BTreeMap.empty)
      Except.ok
        { modules := acc.1
          commands := get_commands_from_manifest manifest acc.2 }

/-- The inner loop of the command-seeding step (lines 81-86): for one
unchanged module key, copy every existing command whose module reference
equals that key. -/
def seed_step (existing_lockfile_commands : BTreeMap LockfileCommand)
    (acc : BTreeMap LockfileCommand) (entry : String × LockfileModule) :
    BTreeMap LockfileCommand :=
  (existing_lockfile_commands.filter
      (fun c => c.2.module == entry.1)).foldl
    (fun acc c => BTreeMap.insert c.1 c.2 acc) acc

/-- The command-seeding step of `new_from_manifest_and_lockfile` (lines
79-87): copy every existing command whose module reference equals a key of
the unchanged module map. -/
def seed_commands (unchanged_lockfile_modules : BTreeMap LockfileModule)
    (existing_lockfile_commands : BTreeMap LockfileCommand) :
    BTreeMap LockfileCommand :=
  unchanged_lockfile_modules.foldl
    (seed_step existing_lockfile_commands) BTreeMap.empty

/-- The changed-dependency loop of `new_from_manifest_and_lockfile` (lines
91-98): resolve each changed dependency and import it, aborting on the
first resolver failure. -/
def import_changed (dependency_resolver : DependencyResolver) :
    List (String × String) → BTreeMap LockfileModule →
    BTreeMap LockfileCommand →
    Except WapmError (BTreeMap LockfileModule × BTreeMap LockfileCommand)
  | [], lockfile_modules, lockfile_commands =>
    Except.ok (lockfile_modules, lockfile_commands)
  | (name, version) :: rest, lockfile_modules, lockfile_commands =>
    match dependency_resolver name version with
    | Except.error e => Except.error e
    | Except.ok dependency_manifest =>
      let acc := get_lockfile_data_from_manifest dependency_manifest
        lockfile_modules lockfile_commands
      import_changed dependency_resolver rest acc.1 acc.2

/-- `Lockfile::new_from_manifest_and_lockfile` (lines 67-109): reconcile a
manifest against an existing lockfile. -/
def Lockfile.new_from_manifest_and_lockfile (manifest : Manifest)
    (existing_lockfile : Lockfile)
    (dependency_resolver : DependencyResolver) : Except WapmError Lockfile :=
  match resolve_changes manifest existing_lockfile.modules with
  | Except.error e => Except.error e
  | Except.ok (changed_dependencies, unchanged_lockfile_modules) =>
    let lockfile_commands :=
      seed_commands unchanged_lockfile_modules existing_lockfile.commands
    match import_changed dependency_resolver changed_dependencies
        unchanged_lockfile_modules lockfile_commands with
    | Except.error e => Except.error e
    | Except.ok acc =>
      Except.ok
        { modules := acc.1
          commands := get_commands_from_manifest manifest acc.2 }

/-- `Lockfile::get_command` (lines 121-125). -/
def Lockfile.get_command (self : Lockfile) (command_name : String) :
    Except WapmError LockfileCommand :=
  match BTreeMap.get command_name self.commands with
  | some command => Except.ok command
  | none =>
    Except.error (WapmError.lockfile (LockfileError.CommandNotFound command_name))

/-- `Lockfile::get_module` (lines 127-131). -/
def Lockfile.get_module (self : Lockfile) (module_name : String) :
    Except WapmError LockfileModule :=
  match BTreeMap.get module_name self.modules with
  | some module => Except.ok module
  | none =>
    Except.error (WapmError.lockfile (LockfileError.ModuleNotFound module_name))

/-- Modelled from the spec: `LOCKFILE_HEADER` lives in `src/lock/mod.rs`,
which is not among the given sources; §6: a literal fixed banner line,
emitted verbatim on save and ignored on load. -/
def LOCKFILE_HEADER : String :=
  "# Lockfile v1, automatically generated - do not edit by hand."

/-- Modelled from the spec: `LOCKFILE_NAME` lives in `src/lock/mod.rs`,
which is not among the given sources; §6: the fixed, well-known lock-file
name within the project directory. -/
def LOCKFILE_NAME : String := "wapm.lock"

/-- Modelled from the spec: the persisted lock state. The toml encoding is
an external collaborator (§1, §6: "structured key-ordered text with a
literal header"), so the persisted document is modelled structurally: the
header banner plus the two key-ordered maps. -/
structure LockDocument where
  header : String
  modules : BTreeMap LockfileModule
  commands : BTreeMap LockfileCommand
deriving DecidableEq, Repr

/-- Modelled from the spec: the file system seen by `save`/`open`, a map
from paths to persisted lock documents (`File::create` truncates and
overwrites, `File::open` fails when the path is absent). -/
abbrev FileSystem := BTreeMap LockDocument

/-- `Lockfile::save` (lines 112-119): serialize with the header banner
prefixed and write to the fixed lock-file name inside the directory. -/
def Lockfile.save (self : Lockfile) (directory : String)
    (fs : FileSystem) : FileSystem :=
  BTreeMap.insert (directory ++ "/" ++ LOCKFILE_NAME)
    { header := LOCKFILE_HEADER
      modules := self.modules
      commands := self.commands } fs

/-- `Lockfile::open` (lines 18-25): read the fixed lock-file name from the
directory and parse it back into a lockfile; the header banner is not
consulted. -/
def Lockfile.open_dir (directory : String) (fs : FileSystem) :
    Except WapmError Lockfile :=
  match BTreeMap.get (directory ++ "/" ++ LOCKFILE_NAME) fs with
  | some document =>
    Except.ok { modules := document.modules, commands := document.commands }
  | none => Except.error (WapmError.io "No such file or directory")

/-- The lock key of a declared (name, constraint) pair: the literal
space-joined concatenation used throughout `lockfile.rs`. -/
def depKey (p : String × String) : String := p.1 ++ " " ++ p.2

/-- Specification-side name for the changed set `resolve_changes`
computes: the declared pairs whose key misses the existing module map, in
declaration order. -/
def changed_of (lockfile_modules : BTreeMap LockfileModule)
    (deps : List (String × String)) : List (String × String) :=
  deps.filter (fun p => (BTreeMap.get (depKey p) lockfile_modules).isNone)

/-- Specification-side name for the unchanged map `resolve_changes`
computes. -/
def unchanged_of (lockfile_modules : BTreeMap LockfileModule)
    (deps : List (String × String)) : BTreeMap LockfileModule :=
  (resolve_changes_loop lockfile_modules deps [] BTreeMap.empty).2

/-- The command names a resolved dependency contributes when imported:
none unless its manifest declares a module. -/
def dependency_command_names (dependency : Dependency) : List String :=
  match dependency.manifest.module with
  | some _ =>
    match dependency.manifest.command with
    | some commands => commands.map (fun c => c.name)
    | none => []
  | none => []

/-- The command names contributed by resolving and importing each changed
pair in order (a pair the resolver fails on contributes none, since the
construction aborts there). -/
def resolved_command_names (dependency_resolver : DependencyResolver) :
    List (String × String) → List String
  | [] => []
  | (name, version) :: rest =>
    (match dependency_resolver name version with
     | Except.ok d => dependency_command_names d
     | Except.error _ => []) ++
    resolved_command_names dependency_resolver rest

/-- The command names the root manifest contributes: none unless it
declares both a module and commands. -/
def root_command_names (manifest : Manifest) : List String :=
  match manifest.command, manifest.module with
  | some commands, some _ => commands.map (fun c => c.name)
  | _, _ => []

/-- The key under which the module importer files a dependency's module:
derived from the constructed LockfileModule record (lines 181-185). -/
def module_key (dependency : Dependency) (module : Module) : String :=
  (LockfileModule.from_module dependency.name module
      dependency.download_url).name ++ " " ++
  (LockfileModule.from_module dependency.name module
      dependency.download_url).version

/-- The module keys written by resolving and importing each changed pair
in order (a pair the resolver fails on, or whose manifest declares no
module, contributes none). -/
def resolved_module_keys (dependency_resolver : DependencyResolver) :
    List (String × String) → List String
  | [] => []
  | (name, version) :: rest =>
    (match dependency_resolver name version with
     | Except.ok d =>
       (match d.manifest.module with
        | some module => [module_key d module]
        | none => [])
     | Except.error _ => []) ++
    resolved_module_keys dependency_resolver rest

/-- Concrete fixture (after the reference test corpus): the `foo 1.0.0`
module of the existing lockfile. -/
def wFooModule : LockfileModule :=
  { name := "foo", version := "1.0.0", source := "registry+foo",
    resolved := "", integrity := "", hash := "", abi := "None",
    entry := "foo.wasm" }

/-- Concrete fixture: the `bar 2.0.1` module of the existing lockfile. -/
def wBarModule : LockfileModule :=
  { name := "bar", version := "2.0.1", source := "registry+bar",
    resolved := "", integrity := "", hash := "", abi := "None",
    entry := "bar.wasm" }

/-- Concrete fixture: an existing lockfile with two modules and one
command owned by `foo 1.0.0`. -/
def wExistingLockfile : Lockfile :=
  { modules := [("bar 2.0.1", wBarModule), ("foo 1.0.0", wFooModule)]
    commands := [("do_foo_stuff", { module := "foo 1.0.0" })] }

/-- Concrete fixture: the root manifest's own module. -/
def wTestModule : Module :=
  { name := "test", version := "1.0.0", entry := "target.wasm",
    abi := "None" }

/-- Concrete fixture: a declared dependency table (bar bumped to a
constraint absent from the existing lock, foo unchanged). -/
def wDeps : List (String × DepValue) :=
  [("bar", DepValue.str "3.0.0"), ("foo", DepValue.str "1.0.0")]

/-- Concrete fixture: the extracted (name, constraint) pairs of wDeps. -/
def wDs : List (String × String) :=
  [("bar", "3.0.0"), ("foo", "1.0.0")]

/-- Concrete fixture: the root manifest. -/
def wManifest : Manifest :=
  { module := some wTestModule
    command := some [{ name := "run_test" }]
    dependencies := some wDeps }

/-- Concrete fixture: a root manifest with the same dependencies but no
owned module and no commands. -/
def wManifestAlt : Manifest :=
  { module := none, command := none, dependencies := some wDeps }

/-- Concrete fixture: the manifest module of the newly resolved bar
3.0.0. -/
def wBarNewModule : Module :=
  { name := "bar", version := "3.0.0", entry := "bar.wasm", abi := "None" }

/-- Concrete fixture: the resolved dependency for bar at constraint
3.0.0. -/
def wBarNewDependency : Dependency :=
  { name := "bar"
    manifest :=
      { module := some wBarNewModule
        command := some [{ name := "do_bar_stuff" }]
        dependencies := none }
    download_url := "" }

/-- Concrete fixture: a resolver table knowing only bar at 3.0.0. -/
def wResolver : DependencyResolver := fun name version =>
  if name = "bar" ∧ version = "3.0.0" then Except.ok wBarNewDependency
  else Except.error (WapmError.resolution name version)

/-- Concrete fixture: a resolver failing unconditionally. -/
def wFailResolver : DependencyResolver := fun name version =>
  Except.error (WapmError.resolution name version)

/-- Concrete fixture: a manifest with a malformed dependency
declaration. -/
def wBadManifest : Manifest :=
  { module := none, command := none,
    dependencies := some [("foo", DepValue.malformed)] }

/-- Concrete fixture: a resolved dependency whose manifest declares
commands but no module. -/
def wNoModuleDep : Dependency :=
  { name := "baz"
    manifest :=
      { module := none
        command := some [{ name := "ghost" }]
        dependencies := none }
    download_url := "" }

/-- Concrete fixture: an owned module for a dependency-free root
manifest. -/
def wRootModule : Module :=
  { name := "root", version := "0.1.0", entry := "root.wasm",
    abi := "None" }

/-- Concrete fixture: a manifest with an owned module and a command but no
dependencies. -/
def wRootOnlyManifest : Manifest :=
  { module := some wRootModule
    command := some [{ name := "run" }]
    dependencies := none }

/-- Concrete fixture: the bar 3.0.0 lockfile module produced by the module
importer from wBarNewDependency. -/
def wBarNewLm : LockfileModule :=
  { name := "bar", version := "3.0.0", source := "registry+bar",
    resolved := "", integrity := "", hash := "", abi := "None",
    entry := "bar.wasm" }

/-- Concrete fixture: the reconciliation result for wManifest against
wExistingLockfile under wResolver. -/
def wIncrResult : Lockfile :=
  { modules := [("bar 3.0.0", wBarNewLm), ("foo 1.0.0", wFooModule)]
    commands :=
      [("do_bar_stuff", { module := "bar 3.0.0" }),
       ("do_foo_stuff", { module := "foo 1.0.0" }),
       ("run_test", { module := "test 1.0.0" })] }

/-- Concrete fixture: the reconciliation result for wManifestAlt (no root
module) against wExistingLockfile under wResolver. -/
def wIncrResultAlt : Lockfile :=
  { modules := [("bar 3.0.0", wBarNewLm), ("foo 1.0.0", wFooModule)]
    commands :=
      [("do_bar_stuff", { module := "bar 3.0.0" }),
       ("do_foo_stuff", { module := "foo 1.0.0" })] }

/-- Concrete fixture: a manifest module x 1.0.0 with entry a.wasm. -/
def wXModuleA : Module :=
  { name := "x", version := "1.0.0", entry := "a.wasm", abi := "None" }

/-- Concrete fixture: a manifest module x 1.0.0 with entry b.wasm. -/
def wXModuleB : Module :=
  { name := "x", version := "1.0.0", entry := "b.wasm", abi := "None" }

/-- Concrete fixture: a dependency declaring module x 1.0.0 with entry
a.wasm. -/
def wDepA : Dependency :=
  { name := "dup"
    manifest :=
      { module := some wXModuleA
        command := none
        dependencies := none }
    download_url := "" }

/-- Concrete fixture: a dependency declaring the same name and version as
wDepA but a different entry. -/
def wDepB : Dependency :=
  { name := "dup"
    manifest :=
      { module := some wXModuleB
        command := none
        dependencies := none }
    download_url := "" }

/-- Concrete fixture: the module stored under key `foo 1.0.0` in the
existing lockfile of the collision scenario. -/
def wColM1 : LockfileModule :=
  { name := "foo", version := "1.0.0", source := "", resolved := "",
    integrity := "", hash := "", abi := "None", entry := "old.wasm" }

/-- Concrete fixture: an existing lockfile whose single module key is
`foo 1.0.0`. -/
def wColExisting : Lockfile :=
  { modules := [("foo 1.0.0", wColM1)], commands := [] }

/-- Concrete fixture: a manifest declaring the changed dependency
bar = 3.0.0 and the unchanged dependency foo = 1.0.0. -/
def wColManifest : Manifest :=
  { module := none, command := none,
    dependencies := some
      [("bar", DepValue.str "3.0.0"), ("foo", DepValue.str "1.0.0")] }

/-- Concrete fixture: the manifest module the resolver returns for
bar@3.0.0; its own name foo and version 1.0.0 make the derived key
collide with the unchanged key `foo 1.0.0` (a dependency's manifest may
declare a module named differently from the dependency, as the in-source
test corpus itself does). -/
def wColNewModule : Module :=
  { name := "foo", version := "1.0.0", entry := "new.wasm", abi := "None" }

/-- Concrete fixture: the resolved dependency for bar@3.0.0. -/
def wColDependency : Dependency :=
  { name := "bar"
    manifest :=
      { module := some wColNewModule
        command := none
        dependencies := none }
    download_url := "" }

/-- Concrete fixture: a resolver knowing only bar@3.0.0. -/
def wColResolver : DependencyResolver := fun name version =>
  if name = "bar" ∧ version = "3.0.0" then Except.ok wColDependency
  else Except.error (WapmError.resolution name version)

/-- Concrete fixture: the module record the collision import writes under
`foo 1.0.0`, differing from wColM1. -/
def wColM2 : LockfileModule :=
  { name := "foo", version := "1.0.0", source := "registry+foo",
    resolved := "", integrity := "", hash := "", abi := "None",
    entry := "new.wasm" }

/-- Concrete fixture: the reconciliation result for wColManifest against
wColExisting under wColResolver. -/
def wColResult : Lockfile :=
  { modules := [("foo 1.0.0", wColM2)], commands := [] }

theorem BTreeMap.get_insert {α : Type} (k q : String) (v : α)
    (l : BTreeMap α) :
    BTreeMap.get q (BTreeMap.insert k v l) =
      if q = k then some v else BTreeMap.get q l := by
  induction l with
  | nil =>
    simp only [BTreeMap.insert, BTreeMap.get]
  | cons hd tl ih =>
    obtain ⟨k', v'⟩ := hd
    simp only [BTreeMap.insert]
    by_cases h1 : strLt k k' = true
    · rw [if_pos h1]
      simp only [BTreeMap.get]
    · rw [if_neg h1]
      by_cases h2 : k = k'
      · rw [if_pos h2]
        simp only [BTreeMap.get]
        by_cases hq : q = k
        · simp only [if_pos hq]
        · rw [if_neg hq, if_neg hq, if_neg (fun h => hq (h.trans h2.symm))]
      · rw [if_neg h2]
        simp only [BTreeMap.get]
        by_cases hq : q = k'
        · have hqk : ¬q = k := fun h => h2 (h.symm.trans hq)
          simp only [if_pos hq, if_neg hqk]
        · rw [if_neg hq, if_neg hq, ih]

theorem BTreeMap.get_empty {α : Type} (q : String) :
    BTreeMap.get q (BTreeMap.empty : BTreeMap α) = none := rfl

theorem BTreeMap.get_eq_none_of_not_mem_keys {α : Type} (q : String)
    (l : BTreeMap α) (h : q ∉ l.map Prod.fst) :
    BTreeMap.get q l = none := by
  induction l with
  | nil => rfl
  | cons hd tl ih =>
    simp only [List.map_cons, List.mem_cons, not_or] at h
    simp only [BTreeMap.get, if_neg h.1, ih h.2]

theorem BTreeMap.get_isSome_iff_any {α : Type} (q : String)
    (l : BTreeMap α) :
    (BTreeMap.get q l).isSome = true ↔
      l.any (fun e => e.1 == q) = true := by
  induction l with
  | nil => simp [BTreeMap.get]
  | cons hd tl ih =>
    obtain ⟨k', v'⟩ := hd
    by_cases h : q = k'
    · subst h
      simp [BTreeMap.get]
    · simp only [BTreeMap.get, if_neg h, List.any_cons, ih,
        Bool.or_eq_true, beq_iff_eq]
      constructor
      · intro hs
        exact Or.inr hs
      · rintro (hk | hs)
        · exact absurd hk.symm h
        · exact hs

theorem resolve_changes_loop_fst (mods : BTreeMap LockfileModule)
    (deps : List (String × String)) (changes : List (String × String))
    (acc : BTreeMap LockfileModule) :
    (resolve_changes_loop mods deps changes acc).1 =
      changes ++ changed_of mods deps := by
  induction deps generalizing changes acc with
  | nil => simp [resolve_changes_loop, changed_of]
  | cons p rest ih =>
    obtain ⟨name, version⟩ := p
    cases hg : BTreeMap.get (name ++ " " ++ version) mods with
    | some m =>
      simp only [resolve_changes_loop, hg, ih, changed_of, depKey,
        List.filter_cons]
      rw [if_neg]
      simp [hg]
    | none =>
      simp only [resolve_changes_loop, hg, ih, changed_of, depKey,
        List.filter_cons]
      rw [if_pos]
      · simp [List.append_assoc]
      · simp [hg]

theorem resolve_changes_loop_snd_get (mods : BTreeMap LockfileModule)
    (deps : List (String × String)) (changes : List (String × String))
    (acc : BTreeMap LockfileModule) (key : String) :
    BTreeMap.get key (resolve_changes_loop mods deps changes acc).2 =
      if (∃ p ∈ deps, depKey p = key) ∧
          (BTreeMap.get key mods).isSome = true then
        BTreeMap.get key mods
      else
        BTreeMap.get key acc := by
  induction deps generalizing changes acc with
  | nil =>
    rw [if_neg]
    · rfl
    · rintro ⟨⟨p, hp, _⟩, _⟩
      exact absurd hp (List.not_mem_nil p)
  | cons hd rest ih =>
    obtain ⟨name, version⟩ := hd
    by_cases hk : name ++ " " ++ version = key
    · cases hg : BTreeMap.get (name ++ " " ++ version) mods with
      | some m =>
        have hgk : BTreeMap.get key mods = some m := by rw [← hk]; exact hg
        have hins : BTreeMap.get key
            (BTreeMap.insert (name ++ " " ++ version) m acc) = some m := by
          rw [BTreeMap.get_insert, if_pos hk.symm]
        have hC2 : (∃ p ∈ (name, version) :: rest, depKey p = key) ∧
            (BTreeMap.get key mods).isSome = true := by
          refine ⟨⟨(name, version), List.mem_cons_self _ _, hk⟩, ?_⟩
          rw [hgk]; rfl
        rw [if_pos hC2]
        simp only [resolve_changes_loop, hg, ih, hins]
        by_cases hC1 : (∃ p ∈ rest, depKey p = key) ∧
            (BTreeMap.get key mods).isSome = true
        · rw [if_pos hC1]
        · rw [if_neg hC1, hgk]
      | none =>
        have hgk : BTreeMap.get key mods = none := by rw [← hk]; exact hg
        have hsm : ¬((BTreeMap.get key mods).isSome = true) := by
          rw [hgk]; simp
        simp only [resolve_changes_loop, hg, ih]
        rw [if_neg (fun h => hsm h.2), if_neg (fun h => hsm h.2)]
    · have hiff : ((∃ p ∈ rest, depKey p = key) ∧
          (BTreeMap.get key mods).isSome = true) ↔
          ((∃ p ∈ (name, version) :: rest, depKey p = key) ∧
          (BTreeMap.get key mods).isSome = true) := by
        constructor
        · rintro ⟨⟨p, hp, hpk⟩, hsm⟩
          exact ⟨⟨p, List.mem_cons_of_mem _ hp, hpk⟩, hsm⟩
        · rintro ⟨⟨p, hp, hpk⟩, hsm⟩
          rcases List.mem_cons.mp hp with heq | hp'
          · subst heq
            exact absurd hpk hk
          · exact ⟨⟨p, hp', hpk⟩, hsm⟩
      cases hg : BTreeMap.get (name ++ " " ++ version) mods with
      | some m =>
        have hins : BTreeMap.get key
            (BTreeMap.insert (name ++ " " ++ version) m acc) =
            BTreeMap.get key acc := by
          rw [BTreeMap.get_insert, if_neg (fun h => hk h.symm)]
        simp only [resolve_changes_loop, hg, ih, hins]
        exact if_congr hiff rfl rfl
      | none =>
        simp only [resolve_changes_loop, hg, ih]
        exact if_congr hiff rfl rfl

theorem resolve_changes_eq (manifest : Manifest)
    (mods : BTreeMap LockfileModule)
    (dependencies : List (String × DepValue))
    (ds : List (String × String))
    (h1 : manifest.dependencies = some dependencies)
    (h2 : extract_dependencies dependencies = Except.ok ds) :
    resolve_changes manifest mods =
      Except.ok (changed_of mods ds, unchanged_of mods ds) := by
  have hpair : resolve_changes_loop mods ds [] BTreeMap.empty =
      (changed_of mods ds, unchanged_of mods ds) := by
    refine Prod.ext ?_ rfl
    have h := resolve_changes_loop_fst mods ds [] BTreeMap.empty
    simpa using h
  simp only [resolve_changes, h1, h2, hpair]

theorem get_insert_commands (key : String) (commands : List Command)
    (acc : BTreeMap LockfileCommand) (name : String) :
    BTreeMap.get name (insert_commands key commands acc) =
      if name ∈ commands.map (fun c => c.name) then
        some { module := key }
      else BTreeMap.get name acc := by
  induction commands generalizing acc with
  | nil =>
    rw [if_neg (by simp)]
    rfl
  | cons cmd rest ih =>
    show BTreeMap.get name (insert_commands key rest
        (BTreeMap.insert cmd.name (LockfileCommand.from_command key cmd)
          acc)) = _
    rw [ih]
    by_cases h1 : name ∈ rest.map (fun c => c.name)
    · rw [if_pos h1,
        if_pos (by simp only [List.map_cons, List.mem_cons]; exact Or.inr h1)]
    · rw [if_neg h1, BTreeMap.get_insert]
      by_cases h2 : name = cmd.name
      · rw [if_pos h2,
          if_pos (by simp only [List.map_cons, List.mem_cons]; exact Or.inl h2)]
        rfl
      · rw [if_neg h2, if_neg (by
          simp only [List.map_cons, List.mem_cons]
          rintro (h | h)
          · exact h2 h
          · exact h1 h)]

theorem get_lockfile_data_from_manifest_no_module (dependency : Dependency)
    (mods : BTreeMap LockfileModule) (cmds : BTreeMap LockfileCommand)
    (h : dependency.manifest.module = none) :
    get_lockfile_data_from_manifest dependency mods cmds = (mods, cmds) := by
  simp only [get_lockfile_data_from_manifest, h]

theorem get_lockfile_data_from_manifest_module_cmds (dependency : Dependency)
    (module : Module) (commands : List Command)
    (mods : BTreeMap LockfileModule) (cmds : BTreeMap LockfileCommand)
    (h : dependency.manifest.module = some module)
    (hc : dependency.manifest.command = some commands) :
    get_lockfile_data_from_manifest dependency mods cmds =
      (BTreeMap.insert (module_key dependency module)
        (LockfileModule.from_module dependency.name module
          dependency.download_url) mods,
       insert_commands (module_key dependency module) commands cmds) := by
  simp only [get_lockfile_data_from_manifest, h, hc, module_key]

theorem get_lockfile_data_from_manifest_module_no_cmds
    (dependency : Dependency) (module : Module)
    (mods : BTreeMap LockfileModule) (cmds : BTreeMap LockfileCommand)
    (h : dependency.manifest.module = some module)
    (hc : dependency.manifest.command = none) :
    get_lockfile_data_from_manifest dependency mods cmds =
      (BTreeMap.insert (module_key dependency module)
        (LockfileModule.from_module dependency.name module
          dependency.download_url) mods,
       cmds) := by
  simp only [get_lockfile_data_from_manifest, h, hc, module_key]

theorem get_commands_from_manifest_no_module (manifest : Manifest)
    (cs : BTreeMap LockfileCommand) (h : manifest.module = none) :
    get_commands_from_manifest manifest cs = cs := by
  cases hc : manifest.command with
  | none => simp only [get_commands_from_manifest, h, hc]
  | some commands => simp only [get_commands_from_manifest, h, hc]

theorem get_commands_from_manifest_no_command (manifest : Manifest)
    (cs : BTreeMap LockfileCommand) (h : manifest.command = none) :
    get_commands_from_manifest manifest cs = cs := by
  cases hm : manifest.module with
  | none => simp only [get_commands_from_manifest, h, hm]
  | some module => simp only [get_commands_from_manifest, h, hm]

theorem get_commands_from_manifest_some (manifest : Manifest)
    (module : Module) (commands : List Command)
    (cs : BTreeMap LockfileCommand)
    (hm : manifest.module = some module)
    (hc : manifest.command = some commands) :
    get_commands_from_manifest manifest cs =
      insert_commands (module.name ++ " " ++ module.version) commands cs := by
  simp only [get_commands_from_manifest, hm, hc]

theorem resolve_all_ok_forces (r : DependencyResolver)
    (ds : List (String × String)) (l : List Dependency)
    (h : resolve_all r ds = Except.ok l) :
    ∀ p ∈ ds, (r p.1 p.2).isOk = true := by
  induction ds generalizing l with
  | nil =>
    intro p hp
    exact absurd hp (List.not_mem_nil p)
  | cons hd rest ih =>
    obtain ⟨name, version⟩ := hd
    intro p hp
    simp only [resolve_all] at h
    cases hr : r name version with
    | error e =>
      rw [hr] at h
      exact absurd h (by simp)
    | ok d =>
      rw [hr] at h
      cases ht : resolve_all r rest with
      | error e =>
        rw [ht] at h
        exact absurd h (by simp)
      | ok tail =>
        rcases List.mem_cons.mp hp with heq | hp'
        · subst heq
          rw [hr]
          rfl
        · exact ih tail ht p hp'

theorem import_changed_ok_forces (r : DependencyResolver)
    (changed : List (String × String)) (ms : BTreeMap LockfileModule)
    (cs : BTreeMap LockfileCommand)
    (out : BTreeMap LockfileModule × BTreeMap LockfileCommand)
    (h : import_changed r changed ms cs = Except.ok out) :
    ∀ p ∈ changed, (r p.1 p.2).isOk = true := by
  induction changed generalizing ms cs with
  | nil =>
    intro p hp
    exact absurd hp (List.not_mem_nil p)
  | cons hd rest ih =>
    obtain ⟨name, version⟩ := hd
    intro p hp
    simp only [import_changed] at h
    cases hr : r name version with
    | error e =>
      rw [hr] at h
      exact absurd h (by simp)
    | ok d =>
      rw [hr] at h
      rcases List.mem_cons.mp hp with heq | hp'
      · subst heq
        rw [hr]
        rfl
      · exact ih _ _ h p hp'

theorem import_changed_resolver_agree (r r' : DependencyResolver)
    (changed : List (String × String)) (ms : BTreeMap LockfileModule)
    (cs : BTreeMap LockfileCommand)
    (hagree : ∀ p ∈ changed, r p.1 p.2 = r' p.1 p.2) :
    import_changed r changed ms cs = import_changed r' changed ms cs := by
  induction changed generalizing ms cs with
  | nil => rfl
  | cons hd rest ih =>
    obtain ⟨name, version⟩ := hd
    have hhd : r name version = r' name version :=
      hagree (name, version) (List.mem_cons_self _ _)
    simp only [import_changed, hhd]
    cases r' name version with
    | error e => rfl
    | ok d =>
      exact ih _ _ (fun p hp => hagree p (List.mem_cons_of_mem _ hp))

theorem import_changed_commands_provenance (r : DependencyResolver)
    (changed : List (String × String)) (ms : BTreeMap LockfileModule)
    (cs : BTreeMap LockfileCommand)
    (out : BTreeMap LockfileModule × BTreeMap LockfileCommand)
    (h : import_changed r changed ms cs = Except.ok out) :
    ∀ name c, BTreeMap.get name out.2 = some c →
      BTreeMap.get name cs = some c ∨
      name ∈ resolved_command_names r changed := by
  induction changed generalizing ms cs with
  | nil =>
    intro name c hget
    simp only [import_changed] at h
    cases h
    exact Or.inl hget
  | cons hd rest ih =>
    obtain ⟨hname, hversion⟩ := hd
    intro name c hget
    simp only [import_changed] at h
    cases hr : r hname hversion with
    | error e =>
      rw [hr] at h
      exact absurd h (by simp)
    | ok d =>
      rw [hr] at h
      rcases ih _ _ h name c hget with hprev | hrest
      · -- the command was already present after importing the head
        cases hm : d.manifest.module with
        | none =>
          rw [get_lockfile_data_from_manifest_no_module d _ _ hm] at hprev
          exact Or.inl hprev
        | some module =>
          cases hc : d.manifest.command with
          | none =>
            rw [get_lockfile_data_from_manifest_module_no_cmds d module _ _
              hm hc] at hprev
            exact Or.inl hprev
          | some commands =>
            rw [get_lockfile_data_from_manifest_module_cmds d module commands
              _ _ hm hc] at hprev
            rw [get_insert_commands] at hprev
            by_cases hmem : name ∈ commands.map (fun cc => cc.name)
            · refine Or.inr ?_
              simp only [resolved_command_names, hr, List.mem_append]
              refine Or.inl ?_
              simp only [dependency_command_names, hm, hc]
              exact hmem
            · rw [if_neg hmem] at hprev
              exact Or.inl hprev
      · refine Or.inr ?_
        simp only [resolved_command_names, hr, List.mem_append]
        exact Or.inr hrest

theorem new_from_manifest_extract_error (manifest : Manifest)
    (r : DependencyResolver) (e : WapmError)
    (h : extracted_dependencies manifest = Except.error e) :
    Lockfile.new_from_manifest manifest r = Except.error e := by
  simp only [Lockfile.new_from_manifest, h]

theorem new_from_manifest_resolve_error (manifest : Manifest)
    (r : DependencyResolver) (ds : List (String × String)) (e : WapmError)
    (h1 : extracted_dependencies manifest = Except.ok ds)
    (h2 : resolve_all r ds = Except.error e) :
    Lockfile.new_from_manifest manifest r = Except.error e := by
  simp only [Lockfile.new_from_manifest, h1, h2]

theorem new_from_manifest_ok_eq (manifest : Manifest)
    (r : DependencyResolver) (ds : List (String × String))
    (manifests : List Dependency)
    (h1 : extracted_dependencies manifest = Except.ok ds)
    (h2 : resolve_all r ds = Except.ok manifests) :
    Lockfile.new_from_manifest manifest r =
      Except.ok
        { modules := (import_all manifests (BTreeMap.empty, BTreeMap.empty)).1
          commands := get_commands_from_manifest manifest
            (import_all manifests (BTreeMap.empty, BTreeMap.empty)).2 } := by
  simp only [Lockfile.new_from_manifest, h1, h2]

theorem new_from_manifest_and_lockfile_rc_error (manifest : Manifest)
    (existing : Lockfile) (r : DependencyResolver) (e : WapmError)
    (h : resolve_changes manifest existing.modules = Except.error e) :
    Lockfile.new_from_manifest_and_lockfile manifest existing r =
      Except.error e := by
  simp only [Lockfile.new_from_manifest_and_lockfile, h]

theorem new_from_manifest_and_lockfile_import_error (manifest : Manifest)
    (existing : Lockfile) (r : DependencyResolver)
    (changed : List (String × String)) (unchanged : BTreeMap LockfileModule)
    (e : WapmError)
    (h1 : resolve_changes manifest existing.modules =
      Except.ok (changed, unchanged))
    (h2 : import_changed r changed unchanged
      (seed_commands unchanged existing.commands) = Except.error e) :
    Lockfile.new_from_manifest_and_lockfile manifest existing r =
      Except.error e := by
  simp only [Lockfile.new_from_manifest_and_lockfile, h1, h2]

theorem new_from_manifest_and_lockfile_ok_eq (manifest : Manifest)
    (existing : Lockfile) (r : DependencyResolver)
    (changed : List (String × String)) (unchanged : BTreeMap LockfileModule)
    (out : BTreeMap LockfileModule × BTreeMap LockfileCommand)
    (h1 : resolve_changes manifest existing.modules =
      Except.ok (changed, unchanged))
    (h2 : import_changed r changed unchanged
      (seed_commands unchanged existing.commands) = Except.ok out) :
    Lockfile.new_from_manifest_and_lockfile manifest existing r =
      Except.ok
        { modules := out.1
          commands := get_commands_from_manifest manifest out.2 } := by
  simp only [Lockfile.new_from_manifest_and_lockfile, h1, h2]

theorem get_isSome_iff_exists_key {α : Type} (q : String) (l : BTreeMap α) :
    (BTreeMap.get q l).isSome = true ↔ ∃ e ∈ l, e.1 = q := by
  induction l with
  | nil => simp [BTreeMap.get]
  | cons hd tl ih =>
    obtain ⟨k', v'⟩ := hd
    by_cases h : q = k'
    · subst h
      simp [BTreeMap.get]
    · simp only [BTreeMap.get, if_neg h, ih, List.mem_cons]
      constructor
      · rintro ⟨e, he, hek⟩
        exact ⟨e, Or.inr he, hek⟩
      · rintro ⟨e, he, hek⟩
        rcases he with heq | he'
        · subst heq
          exact absurd hek.symm h
        · exact ⟨e, he', hek⟩

theorem get_seed_step_none (ec : BTreeMap LockfileCommand)
    (entry : String × LockfileModule) (name : String) :
    ∀ acc : BTreeMap LockfileCommand, BTreeMap.get name ec = none →
      BTreeMap.get name (seed_step ec acc entry) = BTreeMap.get name acc := by
  induction ec with
  | nil =>
    intro acc _
    rfl
  | cons hd rest ih =>
    obtain ⟨cname, ccmd⟩ := hd
    intro acc hg
    have hn : ¬name = cname := by
      intro h
      have hgc : BTreeMap.get name ((cname, ccmd) :: rest) = some ccmd := by
        show (if name = cname then some ccmd else BTreeMap.get name rest) =
          some ccmd
        rw [if_pos h]
      rw [hgc] at hg
      cases hg
    have hg' : BTreeMap.get name rest = none := by
      simpa only [BTreeMap.get, if_neg hn] using hg
    show BTreeMap.get name ((((cname, ccmd) :: rest).filter
        (fun cc => cc.2.module == entry.1)).foldl
        (fun a cc => BTreeMap.insert cc.1 cc.2 a) acc) = _
    rw [List.filter_cons]
    by_cases hf : (ccmd.module == entry.1) = true
    · rw [if_pos hf, List.foldl_cons]
      rw [show ((rest.filter (fun cc => cc.2.module == entry.1)).foldl
          (fun a cc => BTreeMap.insert cc.1 cc.2 a)
          (BTreeMap.insert cname ccmd acc)) =
          seed_step rest (BTreeMap.insert cname ccmd acc) entry from rfl]
      rw [ih (BTreeMap.insert cname ccmd acc) hg', BTreeMap.get_insert,
        if_neg hn]
    · rw [if_neg hf]
      exact ih acc hg'

theorem get_seed_step_some (ec : BTreeMap LockfileCommand)
    (entry : String × LockfileModule) (name : String) (c : LockfileCommand) :
    ∀ acc : BTreeMap LockfileCommand, (ec.map Prod.fst).Nodup →
      BTreeMap.get name ec = some c →
      BTreeMap.get name (seed_step ec acc entry) =
        if c.module = entry.1 then some c else BTreeMap.get name acc := by
  induction ec with
  | nil =>
    intro acc _ hg
    cases hg
  | cons hd rest ih =>
    obtain ⟨cname, ccmd⟩ := hd
    intro acc hnd hg
    have hnd2 : (cname :: rest.map Prod.fst).Nodup := by
      simpa only [List.map_cons] using hnd
    have hout : cname ∉ rest.map Prod.fst := (List.nodup_cons.mp hnd2).1
    have hnd' : (rest.map Prod.fst).Nodup := (List.nodup_cons.mp hnd2).2
    by_cases hn : name = cname
    · subst hn
      have hgc : BTreeMap.get name ((name, ccmd) :: rest) = some ccmd := by
        show (if name = name then some ccmd else BTreeMap.get name rest) =
          some ccmd
        rw [if_pos rfl]
      have hcc : ccmd = c := by
        rw [hgc] at hg
        exact Option.some.inj hg
      subst hcc
      have hrest : BTreeMap.get name rest = none :=
        BTreeMap.get_eq_none_of_not_mem_keys name rest hout
      by_cases hf : ccmd.module = entry.1
      · rw [if_pos hf]
        show BTreeMap.get name ((((name, ccmd) :: rest).filter
            (fun cc => cc.2.module == entry.1)).foldl
            (fun a cc => BTreeMap.insert cc.1 cc.2 a) acc) = some ccmd
        rw [List.filter_cons, if_pos (by simpa using hf), List.foldl_cons]
        rw [show ((rest.filter (fun cc => cc.2.module == entry.1)).foldl
            (fun a cc => BTreeMap.insert cc.1 cc.2 a)
            (BTreeMap.insert name ccmd acc)) =
            seed_step rest (BTreeMap.insert name ccmd acc) entry from rfl]
        rw [get_seed_step_none rest entry name
          (BTreeMap.insert name ccmd acc) hrest, BTreeMap.get_insert,
          if_pos rfl]
      · rw [if_neg hf]
        show BTreeMap.get name ((((name, ccmd) :: rest).filter
            (fun cc => cc.2.module == entry.1)).foldl
            (fun a cc => BTreeMap.insert cc.1 cc.2 a) acc) =
          BTreeMap.get name acc
        rw [List.filter_cons, if_neg (by simpa using hf)]
        exact get_seed_step_none rest entry name acc hrest
    · have hg' : BTreeMap.get name rest = some c := by
        simpa only [BTreeMap.get, if_neg hn] using hg
      by_cases hf : ccmd.module = entry.1
      · show BTreeMap.get name ((((cname, ccmd) :: rest).filter
            (fun cc => cc.2.module == entry.1)).foldl
            (fun a cc => BTreeMap.insert cc.1 cc.2 a) acc) = _
        rw [List.filter_cons, if_pos (by simpa using hf), List.foldl_cons]
        rw [show ((rest.filter (fun cc => cc.2.module == entry.1)).foldl
            (fun a cc => BTreeMap.insert cc.1 cc.2 a)
            (BTreeMap.insert cname ccmd acc)) =
            seed_step rest (BTreeMap.insert cname ccmd acc) entry from rfl]
        rw [ih (BTreeMap.insert cname ccmd acc) hnd' hg',
          BTreeMap.get_insert, if_neg hn]
      · show BTreeMap.get name ((((cname, ccmd) :: rest).filter
            (fun cc => cc.2.module == entry.1)).foldl
            (fun a cc => BTreeMap.insert cc.1 cc.2 a) acc) = _
        rw [List.filter_cons, if_neg (by simpa using hf)]
        exact ih acc hnd' hg'

theorem get_seed_fold_none (u : List (String × LockfileModule))
    (ec : BTreeMap LockfileCommand) (name : String)
    (hg : BTreeMap.get name ec = none) :
    ∀ acc, BTreeMap.get name (u.foldl (seed_step ec) acc) =
      BTreeMap.get name acc := by
  induction u with
  | nil =>
    intro acc
    rfl
  | cons e u' ih =>
    intro acc
    rw [List.foldl_cons, ih (seed_step ec acc e),
      get_seed_step_none ec e name acc hg]

theorem get_seed_fold_some (u : List (String × LockfileModule))
    (ec : BTreeMap LockfileCommand) (name : String) (c : LockfileCommand)
    (hnd : (ec.map Prod.fst).Nodup)
    (hg : BTreeMap.get name ec = some c) :
    ∀ acc, BTreeMap.get name (u.foldl (seed_step ec) acc) =
      if ∃ e ∈ u, e.1 = c.module then some c
      else BTreeMap.get name acc := by
  induction u with
  | nil =>
    intro acc
    rw [if_neg (by rintro ⟨e, he, _⟩; exact absurd he (List.not_mem_nil e))]
    rfl
  | cons e u' ih =>
    intro acc
    rw [List.foldl_cons, ih (seed_step ec acc e)]
    by_cases h1 : ∃ x ∈ u', x.1 = c.module
    · obtain ⟨x, hx, hxm⟩ := h1
      rw [if_pos ⟨x, hx, hxm⟩,
        if_pos ⟨x, List.mem_cons_of_mem _ hx, hxm⟩]
    · rw [if_neg h1, get_seed_step_some ec e name c acc hnd hg]
      by_cases h2 : c.module = e.1
      · rw [if_pos h2, if_pos ⟨e, List.mem_cons_self _ _, h2.symm⟩]
      · rw [if_neg h2, if_neg (by
          rintro ⟨x, hx, hxm⟩
          rcases List.mem_cons.mp hx with heq | hx'
          · subst heq
            exact h2 hxm.symm
          · exact h1 ⟨x, hx', hxm⟩)]

theorem get_seed_commands_some (u : BTreeMap LockfileModule)
    (ec : BTreeMap LockfileCommand) (name : String) (c : LockfileCommand)
    (hnd : (ec.map Prod.fst).Nodup)
    (hg : BTreeMap.get name ec = some c) :
    BTreeMap.get name (seed_commands u ec) =
      if ∃ e ∈ u, e.1 = c.module then some c else none := by
  unfold seed_commands
  rw [get_seed_fold_some u ec name c hnd hg BTreeMap.empty,
    BTreeMap.get_empty]

theorem get_seed_commands_none (u : BTreeMap LockfileModule)
    (ec : BTreeMap LockfileCommand) (name : String)
    (hg : BTreeMap.get name ec = none) :
    BTreeMap.get name (seed_commands u ec) = none := by
  unfold seed_commands
  rw [get_seed_fold_none u ec name hg BTreeMap.empty, BTreeMap.get_empty]

theorem import_changed_commands_none (r : DependencyResolver)
    (changed : List (String × String)) (ms : BTreeMap LockfileModule)
    (cs : BTreeMap LockfileCommand)
    (out : BTreeMap LockfileModule × BTreeMap LockfileCommand)
    (h : import_changed r changed ms cs = Except.ok out)
    (name : String) (hcs : BTreeMap.get name cs = none)
    (hnm : name ∉ resolved_command_names r changed) :
    BTreeMap.get name out.2 = none := by
  cases hout : BTreeMap.get name out.2 with
  | none => rfl
  | some c =>
    rcases import_changed_commands_provenance r changed ms cs out h name c
        hout with hc | hc
    · rw [hcs] at hc
      cases hc
    · exact absurd hc hnm

theorem get_lockfile_data_modules (dependency : Dependency)
    (module : Module) (mods : BTreeMap LockfileModule)
    (cmds : BTreeMap LockfileCommand)
    (h : dependency.manifest.module = some module) :
    (get_lockfile_data_from_manifest dependency mods cmds).1 =
      BTreeMap.insert (module_key dependency module)
        (LockfileModule.from_module dependency.name module
          dependency.download_url) mods := by
  cases hc : dependency.manifest.command with
  | none =>
    rw [get_lockfile_data_from_manifest_module_no_cmds dependency module
      mods cmds h hc]
  | some commands =>
    rw [get_lockfile_data_from_manifest_module_cmds dependency module
      commands mods cmds h hc]

theorem import_changed_modules_get (r : DependencyResolver)
    (changed : List (String × String))
    (out : BTreeMap LockfileModule × BTreeMap LockfileCommand)
    (key : String) :
    ∀ (ms : BTreeMap LockfileModule) (cs : BTreeMap LockfileCommand),
      import_changed r changed ms cs = Except.ok out →
      key ∉ resolved_module_keys r changed →
      BTreeMap.get key out.1 = BTreeMap.get key ms := by
  induction changed with
  | nil =>
    intro ms cs h _
    simp only [import_changed] at h
    cases h
    rfl
  | cons hd rest ih =>
    obtain ⟨hname, hversion⟩ := hd
    intro ms cs h hk
    simp only [import_changed] at h
    cases hr : r hname hversion with
    | error e =>
      rw [hr] at h
      exact absurd h (by simp)
    | ok d =>
      rw [hr] at h
      have hk2 : key ∉ resolved_module_keys r rest := by
        intro hmem
        apply hk
        simp only [resolved_module_keys, hr, List.mem_append]
        exact Or.inr hmem
      rw [ih _ _ h hk2]
      cases hm : d.manifest.module with
      | none => rw [get_lockfile_data_from_manifest_no_module d ms cs hm]
      | some module =>
        rw [get_lockfile_data_modules d module ms cs hm,
          BTreeMap.get_insert]
        rw [if_neg (by
          intro heq
          apply hk
          simp only [resolved_module_keys, hr, hm, List.mem_append]
          exact Or.inl (by rw [heq]; exact List.mem_singleton.mpr rfl))]

theorem get_commands_from_manifest_declared (manifest : Manifest)
    (module : Module) (commands : List Command)
    (cs : BTreeMap LockfileCommand)
    (hm : manifest.module = some module)
    (hc : manifest.command = some commands)
    (command : Command) (hmem : command ∈ commands) :
    BTreeMap.get command.name (get_commands_from_manifest manifest cs) =
      some { module := module.name ++ " " ++ module.version } := by
  rw [get_commands_from_manifest_some manifest module commands cs hm hc,
    get_insert_commands]
  rw [if_pos (List.mem_map.mpr ⟨command, hmem, rfl⟩)]

theorem get_commands_from_manifest_not_declared (manifest : Manifest)
    (cs : BTreeMap LockfileCommand) (name : String)
    (h : name ∉ root_command_names manifest) :
    BTreeMap.get name (get_commands_from_manifest manifest cs) =
      BTreeMap.get name cs := by
  cases hm : manifest.module with
  | none => rw [get_commands_from_manifest_no_module manifest cs hm]
  | some module =>
    cases hc : manifest.command with
    | none => rw [get_commands_from_manifest_no_command manifest cs hc]
    | some commands =>
      have hnames : root_command_names manifest =
          commands.map (fun c => c.name) := by
        simp only [root_command_names, hc, hm]
      rw [get_commands_from_manifest_some manifest module commands cs hm hc,
        get_insert_commands]
      rw [if_neg (by rw [← hnames]; exact h)]

theorem root_binding_fresh (manifest : Manifest) (r : DependencyResolver)
    (module : Module) (commands : List Command)
    (hm : manifest.module = some module)
    (hc : manifest.command = some commands)
    (command : Command) (hmem : command ∈ commands)
    (L : Lockfile)
    (hok : Lockfile.new_from_manifest manifest r = Except.ok L) :
    BTreeMap.get command.name L.commands =
      some { module := module.name ++ " " ++ module.version } := by
  cases hed : extracted_dependencies manifest with
  | error e =>
    rw [new_from_manifest_extract_error manifest r e hed] at hok
    cases hok
  | ok ds =>
    cases hra : resolve_all r ds with
    | error e =>
      rw [new_from_manifest_resolve_error manifest r ds e hed hra] at hok
      cases hok
    | ok manifests =>
      rw [new_from_manifest_ok_eq manifest r ds manifests hed hra] at hok
      rw [← Except.ok.inj hok]
      exact get_commands_from_manifest_declared manifest module commands _
        hm hc command hmem

theorem root_binding_incremental (manifest : Manifest) (existing : Lockfile)
    (r : DependencyResolver) (module : Module) (commands : List Command)
    (hm : manifest.module = some module)
    (hc : manifest.command = some commands)
    (command : Command) (hmem : command ∈ commands)
    (L : Lockfile)
    (hok : Lockfile.new_from_manifest_and_lockfile manifest existing r =
      Except.ok L) :
    BTreeMap.get command.name L.commands =
      some { module := module.name ++ " " ++ module.version } := by
  cases hrc : resolve_changes manifest existing.modules with
  | error e =>
    rw [new_from_manifest_and_lockfile_rc_error manifest existing r e
      hrc] at hok
    cases hok
  | ok p =>
    obtain ⟨changed, unchanged⟩ := p
    cases him : import_changed r changed unchanged
        (seed_commands unchanged existing.commands) with
    | error e =>
      rw [new_from_manifest_and_lockfile_import_error manifest existing r
        changed unchanged e hrc him] at hok
      cases hok
    | ok out =>
      rw [new_from_manifest_and_lockfile_ok_eq manifest existing r changed
        unchanged out hrc him] at hok
      rw [← Except.ok.inj hok]
      exact get_commands_from_manifest_declared manifest module commands _
        hm hc command hmem

/-- Claim C1: for every manifest and existing module map, resolve_changes
keys each declared dependency (name, constraint) by the verbatim
concatenation name ++ " " ++ constraint; a hit copies the existing
LockfileModule into the unchanged map under that key, a miss appends the
pair to the changed sequence; with no declared dependencies the result is
the empty sequence and the empty map. -/
theorem resolve_changes_correct (manifest : Manifest)
    (mods : BTreeMap LockfileModule) :
    (manifest.dependencies = none →
      resolve_changes manifest mods = Except.ok ([], BTreeMap.empty)) ∧
    (∀ dependencies ds, manifest.dependencies = some dependencies →
      extract_dependencies dependencies = Except.ok ds →
      resolve_changes manifest mods =
        Except.ok
          (ds.filter (fun p => (BTreeMap.get (depKey p) mods).isNone),
            unchanged_of mods ds) ∧
      (∀ p ∈ ds, ∀ m, BTreeMap.get (depKey p) mods = some m →
        BTreeMap.get (depKey p) (unchanged_of mods ds) = some m) ∧
      (∀ key m, BTreeMap.get key (unchanged_of mods ds) = some m →
        ∃ p, p ∈ ds ∧ depKey p = key ∧ BTreeMap.get key mods = some m)) := by
  constructor
  · intro h
    simp only [resolve_changes, h]
  · intro dependencies ds h1 h2
    refine ⟨resolve_changes_eq manifest mods dependencies ds h1 h2, ?_, ?_⟩
    · intro p hp m hm
      unfold unchanged_of
      rw [resolve_changes_loop_snd_get,
        if_pos ⟨⟨p, hp, rfl⟩, by rw [hm]; rfl⟩]
      exact hm
    · intro key m hm
      unfold unchanged_of at hm
      rw [resolve_changes_loop_snd_get] at hm
      by_cases hC : (∃ p ∈ ds, depKey p = key) ∧
          (BTreeMap.get key mods).isSome = true
      · rw [if_pos hC] at hm
        obtain ⟨⟨p, hp, hpk⟩, _⟩ := hC
        exact ⟨p, hp, hpk, hm⟩
      · rw [if_neg hC, BTreeMap.get_empty] at hm
        cases hm

/-- Witness for C1: the concrete manifest declaring bar 3.0.0 (changed)
and foo 1.0.0 (unchanged) against the concrete existing module map. -/
theorem resolve_changes_correct_witness :
    wManifest.dependencies = some wDeps ∧
    extract_dependencies wDeps = Except.ok wDs ∧
    resolve_changes wManifest wExistingLockfile.modules =
      Except.ok
        (wDs.filter (fun p =>
          (BTreeMap.get (depKey p) wExistingLockfile.modules).isNone),
          unchanged_of wExistingLockfile.modules wDs) :=
  ⟨rfl, rfl,
    ((resolve_changes_correct wManifest wExistingLockfile.modules).2
      wDeps wDs rfl rfl).1⟩

/-- Claim C6: saving a lockfile to a directory and opening it back yields
an equal lockfile; the header banner written by save is ignored on load. -/
theorem save_open_roundtrip (L : Lockfile) (directory : String)
    (fs : FileSystem) :
    Lockfile.open_dir directory (L.save directory fs) = Except.ok L := by
  unfold Lockfile.open_dir Lockfile.save
  rw [BTreeMap.get_insert, if_pos rfl]

/-- Claim C7: a resolved dependency whose manifest declares no module
leaves both maps unchanged, even when that manifest declares commands. -/
theorem moduleless_import_noop (dependency : Dependency)
    (mods : BTreeMap LockfileModule) (cmds : BTreeMap LockfileCommand)
    (h : dependency.manifest.module = none) :
    get_lockfile_data_from_manifest dependency mods cmds = (mods, cmds) :=
  get_lockfile_data_from_manifest_no_module dependency mods cmds h

/-- Witness for C7: a dependency declaring a command but no module
contributes nothing to either map. -/
theorem moduleless_import_noop_witness :
    wNoModuleDep.manifest.command = some [{ name := "ghost" }] ∧
    get_lockfile_data_from_manifest wNoModuleDep
      [("foo 1.0.0", wFooModule)] [] = ([("foo 1.0.0", wFooModule)], []) :=
  ⟨rfl, moduleless_import_noop wNoModuleDep [("foo 1.0.0", wFooModule)] []
    rfl⟩

/-- Claim C8: the module importer files the imported module under the key
derived from the constructed LockfileModule record (its own name and
version, space-joined), and inserting the same key twice overwrites the
earlier entry. -/
theorem module_key_derived_and_overwrite (d d2 : Dependency)
    (module module2 : Module) (mods : BTreeMap LockfileModule)
    (cmds cmds2 : BTreeMap LockfileCommand)
    (h : d.manifest.module = some module)
    (h2 : d2.manifest.module = some module2) :
    ((get_lockfile_data_from_manifest d mods cmds).1 =
      BTreeMap.insert
        ((LockfileModule.from_module d.name module d.download_url).name ++
          " " ++
          (LockfileModule.from_module d.name module d.download_url).version)
        (LockfileModule.from_module d.name module d.download_url) mods) ∧
    (module_key d2 module2 = module_key d module →
      BTreeMap.get (module_key d module)
        ((get_lockfile_data_from_manifest d2
          ((get_lockfile_data_from_manifest d mods cmds).1) cmds2).1) =
        some (LockfileModule.from_module d2.name module2
          d2.download_url)) := by
  constructor
  · exact get_lockfile_data_modules d module mods cmds h
  · intro hkeq
    rw [get_lockfile_data_modules d2 module2 _ cmds2 h2, hkeq,
      BTreeMap.get_insert, if_pos rfl]

/-- Witness for C8: two dependencies resolving to the same name and
version but different entries; the second import wins. -/
theorem module_key_derived_and_overwrite_witness :
    module_key wDepB wXModuleB = module_key wDepA wXModuleA ∧
    BTreeMap.get (module_key wDepA wXModuleA)
      ((get_lockfile_data_from_manifest wDepB
        ((get_lockfile_data_from_manifest wDepA [] []).1) []).1) =
      some (LockfileModule.from_module wDepB.name wXModuleB
        wDepB.download_url) :=
  ⟨rfl,
    (module_key_derived_and_overwrite wDepA wDepB wXModuleA wXModuleB
      [] [] [] rfl rfl).2 rfl⟩

/-- Claim C9: get_module and get_command are exact-key lookups: an absent
key yields the typed not-found error carrying exactly the requested name,
a present key yields the exact stored record. -/
theorem lookup_exact (L : Lockfile) (name : String) :
    ((BTreeMap.get name L.commands = none →
      L.get_command name =
        Except.error
          (WapmError.lockfile (LockfileError.CommandNotFound name))) ∧
     (∀ c, BTreeMap.get name L.commands = some c →
      L.get_command name = Except.ok c)) ∧
    ((BTreeMap.get name L.modules = none →
      L.get_module name =
        Except.error
          (WapmError.lockfile (LockfileError.ModuleNotFound name))) ∧
     (∀ m, BTreeMap.get name L.modules = some m →
      L.get_module name = Except.ok m)) := by
  refine ⟨⟨?_, ?_⟩, ?_, ?_⟩
  · intro h
    simp only [Lockfile.get_command, h]
  · intro c h
    simp only [Lockfile.get_command, h]
  · intro h
    simp only [Lockfile.get_module, h]
  · intro m h
    simp only [Lockfile.get_module, h]

/-- Witness for C9: the concrete lockfile answers a present command, and a
missing command name comes back as a typed not-found error naming it. -/
theorem lookup_exact_witness :
    wExistingLockfile.get_command "do_foo_stuff" =
      Except.ok { module := "foo 1.0.0" } ∧
    wExistingLockfile.get_command "do_bar_stuff" =
      Except.error
        (WapmError.lockfile
          (LockfileError.CommandNotFound "do_bar_stuff")) :=
  ⟨((lookup_exact wExistingLockfile "do_foo_stuff").1.2
      { module := "foo 1.0.0" } rfl),
   ((lookup_exact wExistingLockfile "do_bar_stuff").1.1 rfl)⟩

/-- Claim C2, amended: a declared dependency whose (name, constraint) key
is present in the existing module map is never passed to the resolver (the
construction result depends on the resolver only at changed pairs, and
succeeding forces only the changed pairs to resolve) and its module record
is carried byte-identical into the unchanged map — and into the new
lockfile provided no changed dependency resolves to the same module key —
while every declared dependency whose key is absent is in the changed set
and is passed to the resolver. -/
theorem new_from_manifest_and_lockfile_resolver_usage
    (manifest : Manifest) (existing : Lockfile) (r r2 : DependencyResolver)
    (dependencies : List (String × DepValue)) (ds : List (String × String))
    (h1 : manifest.dependencies = some dependencies)
    (h2 : extract_dependencies dependencies = Except.ok ds) :
    (∀ p ∈ ds, ∀ m, BTreeMap.get (depKey p) existing.modules = some m →
      p ∉ changed_of existing.modules ds ∧
      BTreeMap.get (depKey p) (unchanged_of existing.modules ds) = some m) ∧
    (∀ p ∈ ds, ∀ m, BTreeMap.get (depKey p) existing.modules = some m →
      depKey p ∉ resolved_module_keys r (changed_of existing.modules ds) →
      ∀ L, Lockfile.new_from_manifest_and_lockfile manifest existing r =
        Except.ok L →
      BTreeMap.get (depKey p) L.modules = some m) ∧
    (∀ p ∈ ds, BTreeMap.get (depKey p) existing.modules = none →
      p ∈ changed_of existing.modules ds) ∧
    ((∀ p ∈ changed_of existing.modules ds, r p.1 p.2 = r2 p.1 p.2) →
      Lockfile.new_from_manifest_and_lockfile manifest existing r =
        Lockfile.new_from_manifest_and_lockfile manifest existing r2) ∧
    (∀ L, Lockfile.new_from_manifest_and_lockfile manifest existing r =
        Except.ok L →
      ∀ p ∈ changed_of existing.modules ds, (r p.1 p.2).isOk = true) := by
  have hrc := resolve_changes_eq manifest existing.modules dependencies ds
    h1 h2
  have hcarry : ∀ p ∈ ds, ∀ m,
      BTreeMap.get (depKey p) existing.modules = some m →
      BTreeMap.get (depKey p) (unchanged_of existing.modules ds) =
        some m := by
    intro p hp m hm
    unfold unchanged_of
    rw [resolve_changes_loop_snd_get,
      if_pos ⟨⟨p, hp, rfl⟩, by rw [hm]; rfl⟩]
    exact hm
  refine ⟨?_, ?_, ?_, ?_, ?_⟩
  · intro p hp m hm
    constructor
    · intro hmem
      have hmem2 := (List.mem_filter.mp hmem).2
      rw [hm] at hmem2
      exact absurd hmem2 (by simp)
    · exact hcarry p hp m hm
  · intro p hp m hm hnk L hok
    cases him : import_changed r (changed_of existing.modules ds)
        (unchanged_of existing.modules ds)
        (seed_commands (unchanged_of existing.modules ds)
          existing.commands) with
    | error e =>
      rw [new_from_manifest_and_lockfile_import_error manifest existing r
        (changed_of existing.modules ds) (unchanged_of existing.modules ds)
        e hrc him] at hok
      cases hok
    | ok out =>
      rw [new_from_manifest_and_lockfile_ok_eq manifest existing r
        (changed_of existing.modules ds) (unchanged_of existing.modules ds)
        out hrc him] at hok
      rw [← Except.ok.inj hok]
      show BTreeMap.get (depKey p) out.1 = some m
      rw [import_changed_modules_get r (changed_of existing.modules ds) out
        (depKey p) (unchanged_of existing.modules ds)
        (seed_commands (unchanged_of existing.modules ds) existing.commands)
        him hnk]
      exact hcarry p hp m hm
  · intro p hp hnone
    exact List.mem_filter.mpr ⟨hp, by rw [hnone]; rfl⟩
  · intro hagree
    have him := import_changed_resolver_agree r r2
      (changed_of existing.modules ds) (unchanged_of existing.modules ds)
      (seed_commands (unchanged_of existing.modules ds) existing.commands)
      hagree
    cases hout : import_changed r2 (changed_of existing.modules ds)
        (unchanged_of existing.modules ds)
        (seed_commands (unchanged_of existing.modules ds)
          existing.commands) with
    | error e =>
      rw [new_from_manifest_and_lockfile_import_error manifest existing r
          (changed_of existing.modules ds) (unchanged_of existing.modules ds)
          e hrc (by rw [him, hout]),
        new_from_manifest_and_lockfile_import_error manifest existing r2
          (changed_of existing.modules ds) (unchanged_of existing.modules ds)
          e hrc hout]
    | ok out =>
      rw [new_from_manifest_and_lockfile_ok_eq manifest existing r
          (changed_of existing.modules ds) (unchanged_of existing.modules ds)
          out hrc (by rw [him, hout]),
        new_from_manifest_and_lockfile_ok_eq manifest existing r2
          (changed_of existing.modules ds) (unchanged_of existing.modules ds)
          out hrc hout]
  · intro L hok p hp
    cases him : import_changed r (changed_of existing.modules ds)
        (unchanged_of existing.modules ds)
        (seed_commands (unchanged_of existing.modules ds)
          existing.commands) with
    | error e =>
      rw [new_from_manifest_and_lockfile_import_error manifest existing r
        (changed_of existing.modules ds) (unchanged_of existing.modules ds)
        e hrc him] at hok
      cases hok
    | ok out =>
      exact import_changed_ok_forces r (changed_of existing.modules ds)
        (unchanged_of existing.modules ds)
        (seed_commands (unchanged_of existing.modules ds) existing.commands)
        out him p hp

/-- Witness for C2: bar at the bumped constraint 3.0.0 is changed, foo at
1.0.0 is unchanged, not changed, and carried byte-identical. -/
theorem new_from_manifest_and_lockfile_resolver_usage_witness :
    ("bar", "3.0.0") ∈ changed_of wExistingLockfile.modules wDs ∧
    BTreeMap.get (depKey ("foo", "1.0.0"))
      (unchanged_of wExistingLockfile.modules wDs) = some wFooModule ∧
    ("foo", "1.0.0") ∉ changed_of wExistingLockfile.modules wDs := by
  have h := new_from_manifest_and_lockfile_resolver_usage wManifest
    wExistingLockfile wResolver wFailResolver wDeps wDs rfl rfl
  refine ⟨?_, ?_, ?_⟩
  · exact h.2.2.1 ("bar", "3.0.0") (List.mem_cons_self _ _) rfl
  · exact (h.1 ("foo", "1.0.0")
      (List.mem_cons_of_mem _ (List.mem_cons_self _ _)) wFooModule rfl).2
  · exact (h.1 ("foo", "1.0.0")
      (List.mem_cons_of_mem _ (List.mem_cons_self _ _)) wFooModule rfl).1

/-- Counterexample to C2 as stated: the declared dependency (foo, 1.0.0)
has key `foo 1.0.0` present in the existing module map, yet its module
data is not carried into the new lockfile byte-identical, because the
changed dependency (bar, 3.0.0) resolves to a manifest whose module is
itself named foo at version 1.0.0, so the import derives the same key
`foo 1.0.0` from that module's own name and version and overwrites the
carried record. -/
theorem unchanged_carry_counterexample :
    BTreeMap.get (depKey ("foo", "1.0.0")) wColExisting.modules =
      some wColM1 ∧
    Lockfile.new_from_manifest_and_lockfile wColManifest wColExisting
      wColResolver = Except.ok wColResult ∧
    ¬ BTreeMap.get (depKey ("foo", "1.0.0")) wColResult.modules =
        some wColM1 :=
  ⟨rfl, by rfl, by decide⟩

/-- Claim C3: an existing command is copied by the seeding step iff its
module reference equals a key of the unchanged map; consequently a command
owned by a changed module is absent from the rebuilt command map unless
re-declared by a newly resolved manifest or by the root manifest. -/
theorem command_seed_correct (manifest : Manifest) (existing : Lockfile)
    (r : DependencyResolver)
    (dependencies : List (String × DepValue)) (ds : List (String × String))
    (h1 : manifest.dependencies = some dependencies)
    (h2 : extract_dependencies dependencies = Except.ok ds)
    (hnd : (existing.commands.map Prod.fst).Nodup) :
    (∀ name c,
      BTreeMap.get name
        (seed_commands (unchanged_of existing.modules ds)
          existing.commands) = some c ↔
      (BTreeMap.get name existing.commands = some c ∧
        (BTreeMap.get c.module
          (unchanged_of existing.modules ds)).isSome = true)) ∧
    (∀ L, Lockfile.new_from_manifest_and_lockfile manifest existing r =
        Except.ok L →
      ∀ name,
        (∀ c, BTreeMap.get name existing.commands = some c →
          BTreeMap.get c.module (unchanged_of existing.modules ds) = none) →
        name ∉ resolved_command_names r (changed_of existing.modules ds) →
        name ∉ root_command_names manifest →
        BTreeMap.get name L.commands = none) := by
  have hrc := resolve_changes_eq manifest existing.modules dependencies ds
    h1 h2
  constructor
  · intro name c
    constructor
    · intro hget
      cases hg : BTreeMap.get name existing.commands with
      | none =>
        rw [get_seed_commands_none _ _ name hg] at hget
        cases hget
      | some c0 =>
        rw [get_seed_commands_some _ _ name c0 hnd hg] at hget
        by_cases hex : ∃ e ∈ unchanged_of existing.modules ds,
            e.1 = c0.module
        · rw [if_pos hex] at hget
          have hcc : c0 = c := Option.some.inj hget
          subst hcc
          exact ⟨rfl, (get_isSome_iff_exists_key c0.module _).mpr hex⟩
        · rw [if_neg hex] at hget
          cases hget
    · rintro ⟨hg, hsome⟩
      have hex := (get_isSome_iff_exists_key c.module
        (unchanged_of existing.modules ds)).mp hsome
      rw [get_seed_commands_some _ _ name c hnd hg, if_pos hex]
  · intro L hok name hmods hnres hnroot
    cases him : import_changed r (changed_of existing.modules ds)
        (unchanged_of existing.modules ds)
        (seed_commands (unchanged_of existing.modules ds)
          existing.commands) with
    | error e =>
      rw [new_from_manifest_and_lockfile_import_error manifest existing r
        (changed_of existing.modules ds) (unchanged_of existing.modules ds)
        e hrc him] at hok
      cases hok
    | ok out =>
      rw [new_from_manifest_and_lockfile_ok_eq manifest existing r
        (changed_of existing.modules ds) (unchanged_of existing.modules ds)
        out hrc him] at hok
      rw [← Except.ok.inj hok]
      show BTreeMap.get name (get_commands_from_manifest manifest out.2) =
        none
      rw [get_commands_from_manifest_not_declared manifest out.2 name
        hnroot]
      have hseed : BTreeMap.get name
          (seed_commands (unchanged_of existing.modules ds)
            existing.commands) = none := by
        cases hg : BTreeMap.get name existing.commands with
        | none => exact get_seed_commands_none _ _ name hg
        | some c =>
          rw [get_seed_commands_some _ _ name c hnd hg]
          rw [if_neg (by
            rintro ⟨e, he, hem⟩
            have hs := (get_isSome_iff_exists_key c.module
              (unchanged_of existing.modules ds)).mpr ⟨e, he, hem⟩
            rw [hmods c hg] at hs
            simp at hs)]
      exact import_changed_commands_none r (changed_of existing.modules ds)
        (unchanged_of existing.modules ds)
        (seed_commands (unchanged_of existing.modules ds) existing.commands)
        out him name hseed hnres

/-- Witness for C3: the do_foo_stuff command, owned by the unchanged
module foo 1.0.0, survives the seeding step with its record intact. -/
theorem command_seed_correct_witness :
    BTreeMap.get "do_foo_stuff"
      (seed_commands (unchanged_of wExistingLockfile.modules wDs)
        wExistingLockfile.commands) = some { module := "foo 1.0.0" } := by
  have h := command_seed_correct wManifest wExistingLockfile wResolver
    wDeps wDs rfl rfl (by decide)
  exact (h.1 "do_foo_stuff" { module := "foo 1.0.0" }).mpr ⟨rfl, by decide⟩

/-- Claim C4: both constructors abort on the first failure: a malformed
dependency declaration or a resolver failure on any dependency that must
be resolved yields an error and no lockfile value. -/
theorem construction_failure_fatal (manifest : Manifest)
    (existing : Lockfile) (r : DependencyResolver) :
    (∀ dependencies e, manifest.dependencies = some dependencies →
      extract_dependencies dependencies = Except.error e →
      Lockfile.new_from_manifest manifest r = Except.error e ∧
      Lockfile.new_from_manifest_and_lockfile manifest existing r =
        Except.error e) ∧
    (∀ dependencies ds, manifest.dependencies = some dependencies →
      extract_dependencies dependencies = Except.ok ds →
      ((∃ p ∈ ds, (r p.1 p.2).isOk = false) →
        ∃ e, Lockfile.new_from_manifest manifest r = Except.error e) ∧
      ((∃ p ∈ changed_of existing.modules ds, (r p.1 p.2).isOk = false) →
        ∃ e, Lockfile.new_from_manifest_and_lockfile manifest existing r =
          Except.error e)) := by
  constructor
  · intro dependencies e hdep hext
    have hed : extracted_dependencies manifest = Except.error e := by
      simp only [extracted_dependencies, hdep, hext]
    have hrc : resolve_changes manifest existing.modules =
        Except.error e := by
      simp only [resolve_changes, hdep, hext]
    exact ⟨new_from_manifest_extract_error manifest r e hed,
      new_from_manifest_and_lockfile_rc_error manifest existing r e hrc⟩
  · intro dependencies ds hdep hext
    have hed : extracted_dependencies manifest = Except.ok ds := by
      simp only [extracted_dependencies, hdep, hext]
    have hrc := resolve_changes_eq manifest existing.modules dependencies
      ds hdep hext
    constructor
    · rintro ⟨p, hp, hbad⟩
      cases hra : resolve_all r ds with
      | error e =>
        exact ⟨e, new_from_manifest_resolve_error manifest r ds e hed hra⟩
      | ok l =>
        have hforced := resolve_all_ok_forces r ds l hra p hp
        rw [hforced] at hbad
        cases hbad
    · rintro ⟨p, hp, hbad⟩
      cases him : import_changed r (changed_of existing.modules ds)
          (unchanged_of existing.modules ds)
          (seed_commands (unchanged_of existing.modules ds)
            existing.commands) with
      | error e =>
        exact ⟨e, new_from_manifest_and_lockfile_import_error manifest
          existing r (changed_of existing.modules ds)
          (unchanged_of existing.modules ds) e hrc him⟩
      | ok out =>
        have hforced := import_changed_ok_forces r
          (changed_of existing.modules ds)
          (unchanged_of existing.modules ds)
          (seed_commands (unchanged_of existing.modules ds)
            existing.commands) out him p hp
        rw [hforced] at hbad
        cases hbad

/-- Witness for C4: a malformed declaration aborts both constructors, and
a failing resolver aborts a fresh construction with declared
dependencies. -/
theorem construction_failure_fatal_witness :
    (Lockfile.new_from_manifest wBadManifest wFailResolver =
      Except.error (WapmError.manifest "foo") ∧
     Lockfile.new_from_manifest_and_lockfile wBadManifest wExistingLockfile
       wFailResolver = Except.error (WapmError.manifest "foo")) ∧
    (∃ e, Lockfile.new_from_manifest wManifest wFailResolver =
      Except.error e) := by
  constructor
  · exact (construction_failure_fatal wBadManifest wExistingLockfile
      wFailResolver).1 [("foo", DepValue.malformed)]
      (WapmError.manifest "foo") rfl rfl
  · exact ((construction_failure_fatal wManifest wExistingLockfile
      wFailResolver).2 wDeps wDs rfl rfl).1
      ⟨("bar", "3.0.0"), List.mem_cons_self _ _, rfl⟩

/-- Claim C5: the root command import acts only when the root manifest
declares both an owned module and commands (otherwise it is a no-op), and
because it runs after all dependency imports in both constructors, every
root-declared command name is bound in the final command map to the root
module's key. -/
theorem root_command_import (manifest : Manifest) (existing : Lockfile)
    (r : DependencyResolver) (cs : BTreeMap LockfileCommand) :
    (manifest.module = none →
      get_commands_from_manifest manifest cs = cs) ∧
    (manifest.command = none →
      get_commands_from_manifest manifest cs = cs) ∧
    (∀ module commands, manifest.module = some module →
      manifest.command = some commands →
      ∀ command ∈ commands,
        (∀ L, Lockfile.new_from_manifest manifest r = Except.ok L →
          BTreeMap.get command.name L.commands =
            some { module := module.name ++ " " ++ module.version }) ∧
        (∀ L, Lockfile.new_from_manifest_and_lockfile manifest existing r =
            Except.ok L →
          BTreeMap.get command.name L.commands =
            some { module := module.name ++ " " ++ module.version })) := by
  refine ⟨get_commands_from_manifest_no_module manifest cs,
    get_commands_from_manifest_no_command manifest cs, ?_⟩
  intro module commands hm hc command hmem
  exact ⟨fun L hok => root_binding_fresh manifest r module commands hm hc
      command hmem L hok,
    fun L hok => root_binding_incremental manifest existing r module
      commands hm hc command hmem L hok⟩

/-- Witness for C5: in the concrete reconciliation the root's run_test
command is bound to the root key test 1.0.0. -/
theorem root_command_import_witness :
    Lockfile.new_from_manifest_and_lockfile wManifest wExistingLockfile
      wResolver = Except.ok wIncrResult ∧
    BTreeMap.get "run_test" wIncrResult.commands =
      some { module := "test 1.0.0" } := by
  have hok : Lockfile.new_from_manifest_and_lockfile wManifest
      wExistingLockfile wResolver = Except.ok wIncrResult := by rfl
  refine ⟨hok, ?_⟩
  exact ((root_command_import wManifest wExistingLockfile wResolver
    BTreeMap.empty).2.2 wTestModule [{ name := "run_test" }] rfl rfl
    { name := "run_test" } (List.mem_cons_self _ _)).2 wIncrResult hok

/-- Claim C10 (implicit): both constructors bind root-declared commands to
the root module's key, yet neither ever inserts the root module itself
into the module map (the module map depends on the manifest only through
its declared dependencies), so a constructed lockfile can contain commands
whose module reference matches no module key, by construction. -/
theorem root_module_never_inserted (manifest manifest2 : Manifest)
    (existing : Lockfile) (r : DependencyResolver) :
    (∀ module commands, manifest.module = some module →
      manifest.command = some commands →
      ∀ command ∈ commands, ∀ L,
        (Lockfile.new_from_manifest manifest r = Except.ok L ∨
         Lockfile.new_from_manifest_and_lockfile manifest existing r =
           Except.ok L) →
        BTreeMap.get command.name L.commands =
          some { module := module.name ++ " " ++ module.version }) ∧
    (manifest.dependencies = manifest2.dependencies →
      (∀ L L2, Lockfile.new_from_manifest manifest r = Except.ok L →
        Lockfile.new_from_manifest manifest2 r = Except.ok L2 →
        L.modules = L2.modules) ∧
      (∀ L L2,
        Lockfile.new_from_manifest_and_lockfile manifest existing r =
          Except.ok L →
        Lockfile.new_from_manifest_and_lockfile manifest2 existing r =
          Except.ok L2 →
        L.modules = L2.modules)) ∧
    (∃ m L, Lockfile.new_from_manifest m r = Except.ok L ∧
      ∃ name c, BTreeMap.get name L.commands = some c ∧
        BTreeMap.get c.module L.modules = none) := by
  refine ⟨?_, ?_, ?_⟩
  · intro module commands hm hc command hmem L hok
    rcases hok with hok | hok
    · exact root_binding_fresh manifest r module commands hm hc command
        hmem L hok
    · exact root_binding_incremental manifest existing r module commands
        hm hc command hmem L hok
  · intro hdeps
    have hed : extracted_dependencies manifest =
        extracted_dependencies manifest2 := by
      unfold extracted_dependencies
      rw [hdeps]
    have hrceq : resolve_changes manifest existing.modules =
        resolve_changes manifest2 existing.modules := by
      unfold resolve_changes
      rw [hdeps]
    constructor
    · intro L L2 hok hok2
      cases he : extracted_dependencies manifest with
      | error e =>
        rw [new_from_manifest_extract_error manifest r e he] at hok
        cases hok
      | ok ds =>
        have he2 : extracted_dependencies manifest2 = Except.ok ds := by
          rw [← hed]
          exact he
        cases hra : resolve_all r ds with
        | error e =>
          rw [new_from_manifest_resolve_error manifest r ds e he hra] at hok
          cases hok
        | ok manifests =>
          rw [new_from_manifest_ok_eq manifest r ds manifests he hra] at hok
          rw [new_from_manifest_ok_eq manifest2 r ds manifests he2 hra]
            at hok2
          rw [← Except.ok.inj hok, ← Except.ok.inj hok2]
    · intro L L2 hok hok2
      cases hrc : resolve_changes manifest existing.modules with
      | error e =>
        rw [new_from_manifest_and_lockfile_rc_error manifest existing r e
          hrc] at hok
        cases hok
      | ok p =>
        obtain ⟨changed, unchanged⟩ := p
        have hrc2 : resolve_changes manifest2 existing.modules =
            Except.ok (changed, unchanged) := by
          rw [← hrceq]
          exact hrc
        cases him : import_changed r changed unchanged
            (seed_commands unchanged existing.commands) with
        | error e =>
          rw [new_from_manifest_and_lockfile_import_error manifest existing
            r changed unchanged e hrc him] at hok
          cases hok
        | ok out =>
          rw [new_from_manifest_and_lockfile_ok_eq manifest existing r
            changed unchanged out hrc him] at hok
          rw [new_from_manifest_and_lockfile_ok_eq manifest2 existing r
            changed unchanged out hrc2 him] at hok2
          rw [← Except.ok.inj hok, ← Except.ok.inj hok2]
  · exact ⟨wRootOnlyManifest,
      { modules := [], commands := [("run", { module := "root 0.1.0" })] },
      rfl, "run", { module := "root 0.1.0" }, rfl, rfl⟩

/-- Witness for C10: dropping the root module from the manifest leaves the
reconciled module map unchanged, and the concrete result binds run_test to
test 1.0.0 which is not among its module keys. -/
theorem root_module_never_inserted_witness :
    wManifest.dependencies = wManifestAlt.dependencies ∧
    wIncrResult.modules = wIncrResultAlt.modules ∧
    BTreeMap.get "test 1.0.0" wIncrResult.modules = none := by
  have h := (root_module_never_inserted wManifest wManifestAlt
    wExistingLockfile wResolver).2.1 rfl
  exact ⟨rfl, h.2 wIncrResult wIncrResultAlt rfl rfl, rfl⟩

end Wapm
